import Mathlib

/-!
Shallow embedding of `src/main.py` (a FastAPI proxy in front of the BQE Core
API).  Network effects are made explicit: every function takes the upstream
responses it would receive as arguments, and returns the list of observable
events it performs (identity-endpoint POSTs, token-file writes, resource
GETs) together with its result.  Machine time is a single `Int` (`now_utc()`
frozen for the duration of one request).  JSON bodies are modelled by typed
records; a body that the Python `r.json()` call would fail to parse is
`Option.none`.  Floating-point hour values are modelled as rationals.
-/

/-- The parsed content of `bqe_token.json` (`load_token_file`).  Each field is
`none` when the key is absent from the JSON object.  `refresh_token` is
`Option (Option String)`: the outer layer is key presence, the inner layer
models a JSON `null` value (`some none`) versus a string (`some (some s)`).
`expires_at` is `Option (Option Int)`: outer layer is key presence; the inner
layer is the result of `datetime.fromisoformat` on the stored string —
`some t` when it parses to an aware timestamp `t`, `none` when parsing (or the
subsequent comparison with `now_utc()`) raises. -/
structure StoredToken where
  access_token : Option String
  refresh_token : Option (Option String)
  expires_at : Option (Option Int)
deriving DecidableEq

/-- A well-formed success body of the identity endpoint (`r.json()` in
`refresh_access_token`): keys `access_token` and `expires_in` present,
`refresh_token` optional. -/
structure RefreshBody where
  access_token : String
  refresh_token : Option String
  expires_in : Int
deriving DecidableEq

/-- The identity endpoint's response to the refresh POST.  `body = none`
models a body that is not valid JSON (so `r.json()` raises). -/
structure RefreshResponse where
  status : Nat
  text : String
  body : Option RefreshBody
deriving DecidableEq

/-- The exceptions `main.py` can raise.  `refreshFailed` is the
`RuntimeError` of `refresh_access_token`, `noRefreshToken` the `RuntimeError`
of `get_access_token` (the spec's ConfigurationError), `jsonDecode` an
uncaught `r.json()` failure, and `http s t` a `fastapi.HTTPException` with
status `s` and detail built from `t`. -/
inductive Err where
  | refreshFailed (text : String)
  | noRefreshToken
  | jsonDecode
  | http (status : Nat) (text : String)
deriving DecidableEq

/-- Observable events, in program order: a POST of the refresh grant carrying
the refresh token used, a write of a record to the token file
(`save_token_file`), and a GET of a resource URL.  For `safe_get` the `Nat`
of `httpGet` is the attempt number (1 = first try, 2 = the single retry); for
the per-client endpoints it is 0 for the client-record fetch and the page
number for page requests. -/
inductive Ev where
  | refreshPost (rt : Option String)
  | save (rec : StoredToken)
  | httpGet (n : Nat)
deriving DecidableEq

/-- `refresh_access_token` (main.py lines 47-65).  POSTs the refresh grant;
on non-200 raises `RuntimeError`; otherwise parses JSON (raising on a
malformed body), builds the new record with expiry `now + expires_in - 60`,
keeping the upstream refresh token when rotated and the one just used
otherwise, saves it, and returns the access token.  The `StoredToken` in the
`ok` result is the record written by `save_token_file` (also visible as the
`Ev.save` event), returned here so callers can thread the store state. -/
def refresh_access_token (refreshToken : Option String) (now : Int)
    (rresp : RefreshResponse) : List Ev × Except Err (StoredToken × String) :=
  if rresp.status ≠ 200 then
    ([Ev.refreshPost refreshToken], Except.error (Err.refreshFailed rresp.text))
  else
    match rresp.body with
    | none => ([Ev.refreshPost refreshToken], Except.error Err.jsonDecode)
    | some td =>
      let record : StoredToken :=
        { access_token := some td.access_token
        , refresh_token :=
            some (match td.refresh_token with
                  | some s => some s
                  | none => refreshToken)
        , expires_at := some (some (now + (td.expires_in - 60))) }
      ([Ev.refreshPost refreshToken, Ev.save record],
       Except.ok (record, td.access_token))

/-- `get_access_token` (main.py lines 67-79).  `stored` is what
`load_token_file` returns.  If the stored record has a parsing `expires_at`
strictly later than `now` and an `access_token` key, that token is returned
with no events.  Otherwise the refresh token is the stored record's
`refresh_token` value when that key is present (even when null or empty),
else the configured `BQE_REFRESH_TOKEN` (`envRT`); a missing or falsy choice
raises `RuntimeError`, and otherwise a refresh exchange runs.  The
`Option StoredToken` in the `ok` result is the token-store state after the
call. -/
def get_access_token (stored : Option StoredToken) (now : Int)
    (envRT : Option String) (rresp : RefreshResponse) :
    List Ev × Except Err (Option StoredToken × String) :=
  let cached : Option String :=
    match stored with
    | some d =>
      match d.expires_at with
      | some (some t) => if now < t then d.access_token else none
      | _ => none
    | none => none
  match cached with
  | some tok => ([], Except.ok (stored, tok))
  | none =>
    let rt : Option String :=
      match stored with
      | some d =>
        match d.refresh_token with
        | some v => v
        | none => envRT
      | none => envRT
    match rt with
    | none => ([], Except.error Err.noRefreshToken)
    | some r =>
      if r = "" then ([], Except.error Err.noRefreshToken)
      else
        match refresh_access_token (some r) now rresp with
        | (tr, Except.error e) => (tr, Except.error e)
        | (tr, Except.ok (newRec, tok)) => (tr, Except.ok (some newRec, tok))

/-- First-match association-list lookup; models Python dict indexing and
membership on the ordered dicts below. -/
def alookup {κ V : Type} [DecidableEq κ] (k : κ) : List (κ × V) → Option V
  | [] => none
  | kv :: rest => if kv.1 = k then some kv.2 else alookup k rest

theorem alookup_nil {κ V : Type} [DecidableEq κ] (k : κ) :
    alookup (V := V) k [] = none := rfl

theorem alookup_cons {κ V : Type} [DecidableEq κ] (k : κ) (kv : κ × V)
    (rest : List (κ × V)) :
    alookup k (kv :: rest) = if kv.1 = k then some kv.2 else alookup k rest := rfl

theorem alookup_append {κ V : Type} [DecidableEq κ] (k : κ)
    (l1 l2 : List (κ × V)) :
    alookup k (l1 ++ l2) =
      match alookup k l1 with
      | some v => some v
      | none => alookup k l2 := by
  induction l1 with
  | nil => simp [alookup]
  | cons kv rest ih =>
    by_cases h : kv.1 = k <;> simp [alookup, h, ih]

/-- A resource-endpoint HTTP response with body parsed to `γ` (`none` when
the body is not valid JSON). -/
structure HttpResp (γ : Type) where
  status : Nat
  text : String
  body : Option γ
deriving DecidableEq

/-- The JSON shape of one upstream collection page: either an object
(items under an `items` key, possibly absent, plus an optional `total`), or
a bare array.  Non-object, non-array JSON bodies are outside the model. -/
inductive PageData (γ : Type) where
  | dict (items : Option (List γ)) (total : Option Int) : PageData γ
  | list (items : List γ) : PageData γ
deriving DecidableEq

/-- The duck-typed item extraction
`data.get("items", []) if isinstance(data, dict) else data`
(main.py lines 105, 124, 163, 211). -/
def PageData.itemsOrEmpty {γ : Type} : PageData γ → List γ
  | PageData.dict items _ => items.getD []
  | PageData.list xs => xs

/-- `safe_get` (main.py lines 85-99).  `resp1` is the upstream's answer to
the first GET and `resp2` to the (at most one) retry; `rresp` is the identity
endpoint's answer to any refresh POST during the call.  Mirrors the source:
build headers via `get_access_token`; GET; on a 401 force one refresh with
the configured `BQE_REFRESH_TOKEN` (`envRT`), rebuild headers, and retry
once; then fail on any non-200, and parse JSON with an empty-list fallback. -/
def safe_get {γ : Type} (stored : Option StoredToken) (now : Int)
    (envRT : Option String) (rresp : RefreshResponse)
    (resp1 resp2 : HttpResp (PageData γ)) :
    List Ev × Except Err (PageData γ) :=
  match get_access_token stored now envRT rresp with
  | (tr1, Except.error e) => (tr1, Except.error e)
  | (tr1, Except.ok _st) =>
    if resp1.status = 401 then
      match refresh_access_token envRT now rresp with
      | (tr2, Except.error e) => (tr1 ++ Ev.httpGet 1 :: tr2, Except.error e)
      | (tr2, Except.ok (newRec, _)) =>
        match get_access_token (some newRec) now envRT rresp with
        | (tr3, Except.error e) =>
          (tr1 ++ Ev.httpGet 1 :: (tr2 ++ tr3), Except.error e)
        | (tr3, Except.ok _) =>
          let tr := tr1 ++ Ev.httpGet 1 :: (tr2 ++ tr3 ++ [Ev.httpGet 2])
          if resp2.status ≠ 200 then
            (tr, Except.error (Err.http resp2.status resp2.text))
          else
            match resp2.body with
            | some j => (tr, Except.ok j)
            | none => (tr, Except.ok (PageData.list []))
    else
      let tr := tr1 ++ [Ev.httpGet 1]
      if resp1.status ≠ 200 then
        (tr, Except.error (Err.http resp1.status resp1.text))
      else
        match resp1.body with
        | some j => (tr, Except.ok j)
        | none => (tr, Except.ok (PageData.list []))

/-- The `while True` pagination loop shared by `get_client_resources`
(main.py lines 150-169) and `get_client_timeentries` (lines 198-217).
`pages` maps a page number to the upstream response for
`?page=<n>&pageSize=100`; `st` is the token-store state, re-read by the
`get_headers()` call of every iteration.  Per iteration: non-200 breaks with
what was accumulated; `resp.json()` raises on a malformed body; an empty
`items` breaks; a page shorter than 100 is kept and ends the loop; otherwise
the page is kept and the loop continues with `page + 1`.  `fuel` bounds the
recursion; every theorem below supplies enough fuel for the loop to reach
its terminal page, so the fuel-exhaustion branch is never observed. -/
def page_loop {γ : Type} (pages : Nat → HttpResp (PageData γ)) (now : Int)
    (envRT : Option String) (rresp : RefreshResponse) :
    Nat → Nat → Option StoredToken →
    List Ev × Except Err (List γ × Option StoredToken)
  | 0, _, st => ([], Except.ok ([], st))
  | fuel + 1, p, st =>
    match get_access_token st now envRT rresp with
    | (tr, Except.error e) => (tr, Except.error e)
    | (tr, Except.ok (st1, _tok)) =>
      let tr1 := tr ++ [Ev.httpGet p]
      let r := pages p
      if r.status ≠ 200 then (tr1, Except.ok ([], st1))
      else
        match r.body with
        | none => (tr1, Except.error Err.jsonDecode)
        | some d =>
          let items := d.itemsOrEmpty
          if items.isEmpty then (tr1, Except.ok ([], st1))
          else if items.length < 100 then (tr1, Except.ok (items, st1))
          else
            match page_loop pages now envRT rresp fuel (p + 1) st1 with
            | (tr2, Except.error e) => (tr1 ++ tr2, Except.error e)
            | (tr2, Except.ok (rest, st2)) =>
              (tr1 ++ tr2, Except.ok (items ++ rest, st2))

/-- The fields of an upstream project record that `/projects` inspects:
`p.get("status")` (a JSON number, `none` when absent) plus an opaque label
standing for the rest of the record. -/
structure Project where
  status : Option Int
  label : String
deriving DecidableEq

/-- `STATUS_MAP` (main.py lines 23-28). -/
def STATUS_MAP : List (String × Int) :=
  [("active", 0), ("complete", 2), ("hold", 3), ("inactive", 4)]

/-- Python `str.lower()` (ASCII case mapping). -/
def pyLower (s : String) : String := String.mk (s.data.map Char.toLower)

/-- Python `str.strip()`: drop leading and trailing whitespace. -/
def pyStrip (s : String) : String :=
  String.mk (((s.data.dropWhile Char.isWhitespace).reverse.dropWhile
    Char.isWhitespace).reverse)

/-- `status.strip().lower()` as used on main.py lines 127-130. -/
def pyStripLower (s : String) : String := pyLower (pyStrip s)

/-- The JSON object returned by the `/projects` route. -/
structure ProjectsOut where
  page : Nat
  filter : String
  count : Nat
  total_in_bqe : Int
  projects : List Project
deriving DecidableEq

/-- `get_projects` (main.py lines 115-140): one `safe_get` of a project page,
then an optional client-side status filter.  The filter applies when the
query value is non-empty and its trimmed, lowercased form is a `STATUS_MAP`
key; note that line 129 rebinds `items`, so the `total` fallback of line 132
uses the *filtered* length. -/
def get_projects (page : Nat) (status : Option String)
    (stored : Option StoredToken) (now : Int) (envRT : Option String)
    (rresp : RefreshResponse) (resp1 resp2 : HttpResp (PageData Project)) :
    List Ev × Except Err ProjectsOut :=
  match safe_get stored now envRT rresp resp1 resp2 with
  | (tr, Except.error e) => (tr, Except.error e)
  | (tr, Except.ok data) =>
    let items0 := data.itemsOrEmpty
    let applied : Option (String × Int) :=
      match status with
      | none => none
      | some s =>
        if s = "" then none
        else
          match alookup (pyStripLower s) STATUS_MAP with
          | some code => some (pyStripLower s, code)
          | none => none
    match applied with
    | some nc =>
      let fitems := items0.filter (fun p => decide (p.status = some nc.2))
      let total : Int :=
        match data with
        | PageData.dict _ t => t.getD (Int.ofNat fitems.length)
        | PageData.list _ => Int.ofNat fitems.length
      (tr, Except.ok { page := page, filter := nc.1, count := fitems.length,
                       total_in_bqe := total, projects := fitems })
    | none =>
      let total : Int :=
        match data with
        | PageData.dict _ t => t.getD (Int.ofNat items0.length)
        | PageData.list _ => Int.ofNat items0.length
      (tr, Except.ok { page := page, filter := ("all"), count := items0.length,
                       total_in_bqe := total, projects := items0 })

/-- The fields of the upstream client record used by the per-client
endpoints. -/
structure ClientData where
  id : Option String
  company : Option String
  name : Option String
deriving DecidableEq

/-- The `client` object both per-client endpoints put in their response:
`client_data.get("name", "N/A")` defaults only when the key is absent. -/
structure ClientOut where
  id : Option String
  company : Option String
  name : String
deriving DecidableEq

def mkClientOut (cd : ClientData) : ClientOut :=
  { id := cd.id, company := cd.company, name := cd.name.getD ("N/A") }

/-- The project fields `get_client_resources` reads (main.py lines 173-177).
`none` models an absent key or JSON null; the truthiness guards of the
source also reject empty strings. -/
structure ProjectR where
  managerId : Option String
  manager : Option String
  principalId : Option String
  principal : Option String
deriving DecidableEq

structure NameRole where
  name : String
  role : String
deriving DecidableEq

/-- Insertion into a CPython-ordered dict: overwriting an existing key keeps
its position, a new key is appended. -/
def dinsert {κ V : Type} [DecidableEq κ] (m : List (κ × V)) (k : κ) (v : V) :
    List (κ × V) :=
  match alookup k m with
  | some _ => m.map (fun kv => if kv.1 = k then (k, v) else kv)
  | none => m ++ [(k, v)]

/-- One iteration of the extraction loop of main.py lines 173-177: for a
project, store the manager under `managerId` (when both fields are truthy),
then the principal under `principalId`. -/
def resourceStep (m : List (String × NameRole)) (p : ProjectR) :
    List (String × NameRole) :=
  let m1 :=
    match p.managerId, p.manager with
    | some mid, some mn =>
      if mid ≠ "" ∧ mn ≠ "" then dinsert m mid { name := mn, role := ("Project Manager") }
      else m
    | _, _ => m
  match p.principalId, p.principal with
  | some pid, some pn =>
    if pid ≠ "" ∧ pn ≠ "" then dinsert m1 pid { name := pn, role := ("Principal") }
    else m1
  | _, _ => m1

/-- The `resources` dict built by main.py lines 172-177, in insertion
order. -/
def extract_resources (ps : List ProjectR) : List (String × NameRole) :=
  ps.foldl resourceStep []

/-- The role assignments a project list makes, in program order (per project:
manager first, then principal), as (person id, entry) pairs.  This is the
specification-side sequence whose last entry per id the dict keeps. -/
def assignmentsOf (ps : List ProjectR) : List (String × NameRole) :=
  ps.flatMap (fun p =>
    (match p.managerId, p.manager with
     | some mid, some mn =>
       if mid ≠ "" ∧ mn ≠ "" then [(mid, { name := mn, role := ("Project Manager") : NameRole })]
       else []
     | _, _ => []) ++
    (match p.principalId, p.principal with
     | some pid, some pn =>
       if pid ≠ "" ∧ pn ≠ "" then [(pid, { name := pn, role := ("Principal") : NameRole })]
       else []
     | _, _ => []))

/-- The JSON object returned by `/clients/{id}/resources`. -/
structure ResourcesOut where
  client : ClientOut
  total_unique_resources : Nat
  resources : List NameRole
deriving DecidableEq

/-- `get_client_resources` (main.py lines 143-187): fetch the client record
directly (no `safe_get`), turning any non-200 into a 404; parse its body
(raising on malformed JSON); page through `/project?clientId=...`; then
reduce the projects to the ordered manager/principal dict. -/
def get_client_resources (client_resp : HttpResp ClientData)
    (pages : Nat → HttpResp (PageData ProjectR)) (fuel : Nat)
    (stored : Option StoredToken) (now : Int) (envRT : Option String)
    (rresp : RefreshResponse) : List Ev × Except Err ResourcesOut :=
  match get_access_token stored now envRT rresp with
  | (tr, Except.error e) => (tr, Except.error e)
  | (tr, Except.ok (st1, _tok)) =>
    let tr0 := tr ++ [Ev.httpGet 0]
    if client_resp.status ≠ 200 then
      (tr0, Except.error (Err.http 404 ("Client not found")))
    else
      match client_resp.body with
      | none => (tr0, Except.error Err.jsonDecode)
      | some cd =>
        match page_loop pages now envRT rresp fuel 1 st1 with
        | (tr2, Except.error e) => (tr0 ++ tr2, Except.error e)
        | (tr2, Except.ok (projects, _st2)) =>
          let res := extract_resources projects
          (tr0 ++ tr2, Except.ok
            { client := mkClientOut cd,
              total_unique_resources := res.length,
              resources := res.map (fun kv => kv.2) })

/-- The fields of an upstream time entry that `/clients/{id}/timeentries`
reads.  `actualHours` is `none` when the key is absent or null (both make
`e.get("actualHours") or 0` produce 0); a numeric or numeric-string value is
its rational value. -/
structure TimeEntry where
  resourceId : Option String
  resource : Option String
  actualHours : Option ℚ
  date : Option String
  project : Option String
  activity : Option String
  description : Option String
  billable : Option Bool
deriving DecidableEq

/-- One element of a per-resource `entries` list (main.py lines 233-240). -/
structure EntryOut where
  date : Option String
  project : Option String
  activity : Option String
  hours : ℚ
  description : Option String
  billable : Option Bool
deriving DecidableEq

def mkEntryOut (e : TimeEntry) : EntryOut :=
  { date := e.date, project := e.project, activity := e.activity,
    hours := e.actualHours.getD 0, description := e.description,
    billable := e.billable }

/-- `e.get("resource") or "Unknown"`: absent, null or empty falls back. -/
def orUnknown : Option String → String
  | none => "Unknown"
  | some s => if s = "" then "Unknown" else s

/-- A value of the `resource_hours` dict (main.py lines 227-231). -/
structure ResAgg where
  name : String
  total_hours : ℚ
  entries : List EntryOut
deriving DecidableEq

/-- The fresh dict value inserted when a resource id is first seen
(main.py lines 227-231). -/
def groupFresh (e : TimeEntry) : ResAgg :=
  { name := orUnknown e.resource, total_hours := 0, entries := [] }

/-- The unconditional update of main.py lines 232-240: add this entry's
hours and append its detail record. -/
def groupBump (e : TimeEntry) (v : ResAgg) : ResAgg :=
  { v with total_hours := v.total_hours + e.actualHours.getD 0,
           entries := v.entries ++ [mkEntryOut e] }

/-- One iteration of the grouping loop (main.py lines 221-240). -/
def groupStep (m : List (Option String × ResAgg)) (e : TimeEntry) :
    List (Option String × ResAgg) :=
  let m1 :=
    match alookup e.resourceId m with
    | some _ => m
    | none => m ++ [(e.resourceId, groupFresh e)]
  m1.map (fun kv => if kv.1 = e.resourceId then (kv.1, groupBump e kv.2) else kv)

/-- The `resource_hours` ordered dict built by main.py lines 220-240. -/
def group_entries (es : List TimeEntry) : List (Option String × ResAgg) :=
  es.foldl groupStep []

/-- `round(x, 2)` on the accumulated hours (main.py line 252), modelled as
exact rounding of the rational to 2 decimal places (ties are not modelled
bit-exactly against binary floating point). -/
def round2 (q : ℚ) : ℚ := ((round (q * 100) : ℤ) : ℚ) / 100

/-- One element of `resources_with_hours` (main.py lines 249-257). -/
structure ResOut where
  resource_name : String
  total_hours : ℚ
  entry_count : Nat
  entries : List EntryOut
deriving DecidableEq

/-- The JSON object returned by `/clients/{id}/timeentries`. -/
structure TimeOut where
  client : ClientOut
  total_time_entries : Nat
  resources_with_hours : List ResOut
deriving DecidableEq

/-- `get_client_timeentries` (main.py lines 191-257): fetch the client
record directly (non-200 becomes a 404), page through
`/timeentry?clientId=...`, group by `resourceId`, and emit per-resource
rounded totals. -/
def get_client_timeentries (client_resp : HttpResp ClientData)
    (pages : Nat → HttpResp (PageData TimeEntry)) (fuel : Nat)
    (stored : Option StoredToken) (now : Int) (envRT : Option String)
    (rresp : RefreshResponse) : List Ev × Except Err TimeOut :=
  match get_access_token stored now envRT rresp with
  | (tr, Except.error e) => (tr, Except.error e)
  | (tr, Except.ok (st1, _tok)) =>
    let tr0 := tr ++ [Ev.httpGet 0]
    if client_resp.status ≠ 200 then
      (tr0, Except.error (Err.http 404 ("Client not found")))
    else
      match client_resp.body with
      | none => (tr0, Except.error Err.jsonDecode)
      | some cd =>
        match page_loop pages now envRT rresp fuel 1 st1 with
        | (tr2, Except.error e) => (tr0 ++ tr2, Except.error e)
        | (tr2, Except.ok (entries, _st2)) =>
          let groups := group_entries entries
          (tr0 ++ tr2, Except.ok
            { client := mkClientOut cd,
              total_time_entries := entries.length,
              resources_with_hours := groups.map (fun kv =>
                { resource_name := kv.2.name,
                  total_hours := round2 kv.2.total_hours,
                  entry_count := kv.2.entries.length,
                  entries := kv.2.entries }) })

/-- Token-store reads that hit the cache return the stored token unchanged,
with no events and an unchanged store state. -/
theorem tokenCacheHit (d : StoredToken) (t now : Int) (a : String)
    (envRT : Option String) (rresp : RefreshResponse)
    (h1 : d.expires_at = some (some t)) (h2 : now < t)
    (h3 : d.access_token = some a) :
    get_access_token (some d) now envRT rresp = ([], Except.ok (some d, a)) := by
  unfold get_access_token
  simp [h1, h2, h3]

/-- Claim C1: for every stored record whose `expires_at` parses to a time
strictly later than the current UTC time and which carries an access token,
`get_access_token` returns that access token unchanged, performs no refresh
POST and no token-store write (the event trace is empty), leaves the store
state unchanged, and its result does not depend on the identity endpoint's
response `rresp` (which is universally quantified and absent from the
right-hand side). -/
theorem spec_c1 (d : StoredToken) (t now : Int) (a : String)
    (envRT : Option String) (rresp : RefreshResponse)
    (h1 : d.expires_at = some (some t)) (h2 : now < t)
    (h3 : d.access_token = some a) :
    get_access_token (some d) now envRT rresp = ([], Except.ok (some d, a)) :=
  tokenCacheHit d t now a envRT rresp h1 h2 h3

/-- A stored record that is valid at time 0. -/
def dFix : StoredToken :=
  { access_token := some ("tok"), refresh_token := none,
    expires_at := some (some 10) }

/-- A successful identity-endpoint response. -/
def tdFix : RefreshBody :=
  { access_token := ("newtok"), refresh_token := none, expires_in := 3600 }

def rrOk : RefreshResponse := { status := 200, text := "", body := some tdFix }

theorem spec_c1_witness :
    get_access_token (some dFix) 0 (some ("envtok")) rrOk =
      ([], Except.ok (some dFix, ("tok"))) :=
  spec_c1 dFix 10 0 ("tok") (some ("envtok")) rrOk rfl (by decide) rfl

/-- The record a successful refresh persists: the new access token, the
rotated refresh token when the response has one and otherwise the token just
used, and expiry `now + expires_in - 60`. -/
def specRefreshRecord (rtk : Option String) (now : Int) (td : RefreshBody) :
    StoredToken :=
  { access_token := some td.access_token
  , refresh_token :=
      some (match td.refresh_token with
            | some s => some s
            | none => rtk)
  , expires_at := some (some (now + (td.expires_in - 60))) }

theorem refresh_ok (rtk : Option String) (now : Int) (rresp : RefreshResponse)
    (td : RefreshBody) (h1 : rresp.status = 200) (h2 : rresp.body = some td) :
    refresh_access_token rtk now rresp =
      ([Ev.refreshPost rtk, Ev.save (specRefreshRecord rtk now td)],
       Except.ok (specRefreshRecord rtk now td, td.access_token)) := by
  unfold refresh_access_token specRefreshRecord
  simp [h1, h2]

/-- Claim C2: every successful refresh exchange (status 200 with a parsed
body) persists `specRefreshRecord` — expiry is current time plus the
reported lifetime minus 60 seconds, the refresh token is the
upstream-supplied one when present and otherwise the one just used — and the
`Ev.save` of that record precedes the return of the new access token (the
trace of the successful call is exactly the POST followed by the save). -/
theorem spec_c2 (rtk : Option String) (now : Int) (rresp : RefreshResponse)
    (td : RefreshBody) (h1 : rresp.status = 200) (h2 : rresp.body = some td) :
    refresh_access_token rtk now rresp =
      ([Ev.refreshPost rtk, Ev.save (specRefreshRecord rtk now td)],
       Except.ok (specRefreshRecord rtk now td, td.access_token)) :=
  refresh_ok rtk now rresp td h1 h2

theorem spec_c2_witness :
    refresh_access_token (some ("oldrt")) 0 rrOk =
      ([Ev.refreshPost (some ("oldrt")),
        Ev.save (specRefreshRecord (some ("oldrt")) 0 tdFix)],
       Except.ok (specRefreshRecord (some ("oldrt")) 0 tdFix, ("newtok"))) :=
  spec_c2 (some ("oldrt")) 0 rrOk tdFix rfl rfl

/-- The cache branch of `get_access_token` in isolation: the stored access
token when the record is present, its `expires_at` parses and is strictly in
the future, and the `access_token` key exists. -/
def cachedToken (stored : Option StoredToken) (now : Int) : Option String :=
  match stored with
  | some d =>
    match d.expires_at with
    | some (some t) => if now < t then d.access_token else none
    | _ => none
  | none => none

/-- The refresh-token selection of main.py line 76: the stored record's
`refresh_token` value whenever that key is present, else the configured
initial refresh token. -/
def selectedRefreshToken (stored : Option StoredToken) (envRT : Option String) :
    Option String :=
  match stored with
  | some d =>
    match d.refresh_token with
    | some v => v
    | none => envRT
  | none => envRT

/-- Python truthiness of an optional refresh token: present and non-empty. -/
def hasToken : Option String → Bool
  | none => false
  | some s => decide (s ≠ "")

theorem get_access_token_unfold (stored : Option StoredToken) (now : Int)
    (envRT : Option String) (rresp : RefreshResponse) :
    get_access_token stored now envRT rresp =
      match cachedToken stored now with
      | some tok => ([], Except.ok (stored, tok))
      | none =>
        match selectedRefreshToken stored envRT with
        | none => ([], Except.error Err.noRefreshToken)
        | some r =>
          if r = "" then ([], Except.error Err.noRefreshToken)
          else
            match refresh_access_token (some r) now rresp with
            | (tr, Except.error e) => (tr, Except.error e)
            | (tr, Except.ok (newRec, tok)) => (tr, Except.ok (some newRec, tok)) :=
  rfl

theorem refresh_no_config_error (rtk : Option String) (now : Int)
    (rresp : RefreshResponse) :
    (refresh_access_token rtk now rresp).2 ≠ Except.error Err.noRefreshToken := by
  unfold refresh_access_token
  by_cases h : rresp.status = 200
  · simp only [h]
    cases rresp.body <;> simp
  · simp [h]

/-- Claim C4 (amended): `get_access_token` selects the stored record's
`refresh_token` whenever that key is present — even when its value is null
or empty — and falls back to the configured initial refresh token only when
the key is absent (or there is no record); it raises the
no-refresh-token error exactly when the cache misses and the token so
selected is absent or empty.  In particular a stored record with an empty
`refresh_token` value makes the call fail even when the configured initial
refresh token is available.  When the selected token is non-empty, the call
performs exactly the refresh exchange with that token. -/
theorem spec_c4 (stored : Option StoredToken) (now : Int)
    (envRT : Option String) (rresp : RefreshResponse) :
    ((get_access_token stored now envRT rresp).2 =
        Except.error Err.noRefreshToken ↔
      (cachedToken stored now = none ∧
        hasToken (selectedRefreshToken stored envRT) = false))
    ∧ (∀ r : String, cachedToken stored now = none →
        selectedRefreshToken stored envRT = some r → r ≠ "" →
        (get_access_token stored now envRT rresp).1 =
          (refresh_access_token (some r) now rresp).1 ∧
        (get_access_token stored now envRT rresp).2 =
          (refresh_access_token (some r) now rresp).2.map
            (fun p => (some p.1, p.2))) := by
  rw [get_access_token_unfold]
  constructor
  · cases hc : cachedToken stored now with
    | some tok => simp [hc]
    | none =>
      cases hs : selectedRefreshToken stored envRT with
      | none => simp [hasToken]
      | some r =>
        by_cases hr : r = ""
        · subst hr
          simp [hasToken]
        · rcases hrr : refresh_access_token (some r) now rresp with ⟨tr, res⟩
          have hne := refresh_no_config_error (some r) now rresp
          rw [hrr] at hne
          cases res with
          | error e =>
            simp only [hrr]
            simp [hr, hasToken]
            intro he
            exact absurd (by rw [he]) hne
          | ok p =>
            simp only [hrr]
            simp [hr, hasToken]
  · intro r hcn hsel hrne
    rw [hcn, hsel]
    simp only [if_neg hrne]
    rcases hrr : refresh_access_token (some r) now rresp with ⟨tr, res⟩
    cases res <;> simp [Except.map]

/-- A stored record whose `refresh_token` key is present but empty. -/
def cexStored : StoredToken :=
  { access_token := some ("a"), refresh_token := some (some ("")),
    expires_at := none }

/-- Claim C4 is false as stated: with a stored record whose `refresh_token`
key holds an empty string and a non-empty configured initial refresh token,
`get_access_token` raises the no-refresh-token error even though one of the
two sources provides a refresh token, contradicting "fails ... exactly when
neither source provides a refresh token" (the code never falls back to the
configured token once the key is present). -/
theorem spec_c4_counterexample :
    (get_access_token (some cexStored) 0 (some ("envtok")) rrOk).2 =
        Except.error Err.noRefreshToken
      ∧ hasToken (some ("envtok")) = true := by
  exact ⟨rfl, by decide⟩

theorem spec_c4_witness :
    (get_access_token none 0 none rrOk).2 = Except.error Err.noRefreshToken :=
  (spec_c4 none 0 none rrOk).1.mpr ⟨rfl, rfl⟩

/-- Claim C10: with a usable cached token, any non-200 status on the initial
per-client record fetch — 401, 404, 5xx alike — makes both
`/clients/{id}/resources` and `/clients/{id}/timeentries` fail with
HTTP 404 "Client not found", and the trace shows the single client-record
GET and no page request. -/
theorem spec_c10 (d : StoredToken) (t now : Int) (a : String)
    (envRT : Option String) (rresp : RefreshResponse)
    (cresp : HttpResp ClientData)
    (pagesR : Nat → HttpResp (PageData ProjectR))
    (pagesT : Nat → HttpResp (PageData TimeEntry)) (fuelR fuelT : Nat)
    (h1 : d.expires_at = some (some t)) (h2 : now < t)
    (h3 : d.access_token = some a) (h4 : cresp.status ≠ 200) :
    get_client_resources cresp pagesR fuelR (some d) now envRT rresp =
        ([Ev.httpGet 0], Except.error (Err.http 404 ("Client not found")))
      ∧ get_client_timeentries cresp pagesT fuelT (some d) now envRT rresp =
        ([Ev.httpGet 0], Except.error (Err.http 404 ("Client not found"))) := by
  have hc := tokenCacheHit d t now a envRT rresp h1 h2 h3
  unfold get_client_resources get_client_timeentries
  rw [hc]
  simp [h4]

def pagesNone : Nat → HttpResp (PageData ProjectR) :=
  fun _ => { status := 500, text := "", body := none }

def pagesNoneT : Nat → HttpResp (PageData TimeEntry) :=
  fun _ => { status := 500, text := "", body := none }

theorem spec_c10_witness :
    get_client_resources { status := 500, text := ("boom"), body := none }
        pagesNone 0 (some dFix) 0 (some ("envtok")) rrOk =
        ([Ev.httpGet 0], Except.error (Err.http 404 ("Client not found")))
      ∧ get_client_timeentries { status := 500, text := ("boom"), body := none }
        pagesNoneT 0 (some dFix) 0 (some ("envtok")) rrOk =
        ([Ev.httpGet 0], Except.error (Err.http 404 ("Client not found"))) :=
  spec_c10 dFix 10 0 ("tok") (some ("envtok")) rrOk
    { status := 500, text := ("boom"), body := none } pagesNone pagesNoneT 0 0
    rfl (by decide) rfl (by decide)

/-- Claim C3 is false as stated: the per-client record fetch of
`/clients/{id}/resources` is issued without the `safe_get` wrapper, so a 401
on that first call triggers no refresh and no retry — the trace of this
concrete run contains no `Ev.refreshPost` at all — and the surfaced error is
a 404 "Client not found", not an error carrying status 401 after a retry. -/
theorem spec_c3_counterexample :
    get_client_resources { status := 401, text := ("unauthorized"), body := none }
        pagesNone 0 (some dFix) 0 (some ("envtok")) rrOk =
        ([Ev.httpGet 0], Except.error (Err.http 404 ("Client not found")))
      ∧ Ev.refreshPost (some ("envtok")) ∉ [Ev.httpGet 0] :=
  ⟨rfl, by decide⟩

/-- Claim C3 (amended): only requests issued through `safe_get` — the
`/clients` and `/projects` endpoints — have 401 handling.  There, a 401 on
the first GET triggers exactly one unconditional refresh (it runs even
though the cached token is still unexpired) using the configured initial
refresh token, followed by exactly one retry; a second 401 after the retry
surfaces as an error carrying status 401 and the trace ends with no further
refresh or retry.  The per-client record fetches and per-client page
requests bypass `safe_get`: a 401 record fetch surfaces as a 404 with no
refresh (see the counterexample), and a 401 page request merely ends
pagination. -/
theorem spec_c3 {γ : Type} (d : StoredToken) (t now : Int) (a : String)
    (envRT : Option String) (rresp : RefreshResponse) (td : RefreshBody)
    (resp1 resp2 : HttpResp (PageData γ))
    (h1 : d.expires_at = some (some t)) (h2 : now < t)
    (h3 : d.access_token = some a) (h4 : resp1.status = 401)
    (h5 : rresp.status = 200) (h6 : rresp.body = some td)
    (h7 : 60 < td.expires_in) (h8 : resp2.status = 401) :
    safe_get (some d) now envRT rresp resp1 resp2 =
      ([Ev.httpGet 1, Ev.refreshPost envRT,
        Ev.save (specRefreshRecord envRT now td), Ev.httpGet 2],
       Except.error (Err.http 401 resp2.text)) := by
  have hc := tokenCacheHit d t now a envRT rresp h1 h2 h3
  have hr := refresh_ok envRT now rresp td h5 h6
  have hc2 := tokenCacheHit (specRefreshRecord envRT now td)
    (now + (td.expires_in - 60)) now td.access_token envRT rresp rfl
    (by omega) rfl
  unfold safe_get
  rw [hc, hr]
  simp [h4, h8, hc2]

theorem spec_c3_witness :
    safe_get (γ := Project) (some dFix) 0 (some ("envtok")) rrOk
        { status := 401, text := ("x"), body := none }
        { status := 401, text := ("y"), body := none } =
      ([Ev.httpGet 1, Ev.refreshPost (some ("envtok")),
        Ev.save (specRefreshRecord (some ("envtok")) 0 tdFix), Ev.httpGet 2],
       Except.error (Err.http 401 ("y"))) :=
  spec_c3 dFix 10 0 ("tok") (some ("envtok")) rrOk tdFix
    { status := 401, text := ("x"), body := none }
    { status := 401, text := ("y"), body := none }
    rfl (by decide) rfl rfl rfl rfl (by decide) rfl

/-- Placeholder response used beyond the end of a finite response list;
never reached by the theorems below. -/
def noResp {γ : Type} : HttpResp (PageData γ) := { status := 0, text := "", body := none }

/-- An upstream that answers page `p` with the `p`-th element of `L`
(pages are 1-based). -/
def worldOf {γ : Type} (L : List (HttpResp (PageData γ))) :
    Nat → HttpResp (PageData γ) :=
  fun p => L.getD (p - 1) noResp

/-- The items a page response contributes to the concatenated result: its
extracted items on a parsed 200 response, nothing otherwise. -/
def pageContribution {γ : Type} (r : HttpResp (PageData γ)) : List γ :=
  if r.status = 200 then
    match r.body with
    | some d => d.itemsOrEmpty
    | none => []
  else []

/-- A full page: 200, parsed, and at least `pageSize = 100` items. -/
def isFullPage {γ : Type} (r : HttpResp (PageData γ)) : Prop :=
  r.status = 200 ∧ ∃ d, r.body = some d ∧ 100 ≤ d.itemsOrEmpty.length

/-- A terminal page: a non-200 response, or a parsed page with fewer than
`pageSize = 100` items (zero included). -/
def isLastPage {γ : Type} (r : HttpResp (PageData γ)) : Prop :=
  r.status ≠ 200 ∨ ∃ d, r.body = some d ∧ d.itemsOrEmpty.length < 100

theorem page_loop_succ {γ : Type} (pages : Nat → HttpResp (PageData γ))
    (now : Int) (envRT : Option String) (rresp : RefreshResponse)
    (fuel p : Nat) (st : Option StoredToken) :
    page_loop pages now envRT rresp (fuel + 1) p st =
      match get_access_token st now envRT rresp with
      | (tr, Except.error e) => (tr, Except.error e)
      | (tr, Except.ok (st1, _tok)) =>
        let tr1 := tr ++ [Ev.httpGet p]
        let r := pages p
        if r.status ≠ 200 then (tr1, Except.ok ([], st1))
        else
          match r.body with
          | none => (tr1, Except.error Err.jsonDecode)
          | some d =>
            let items := d.itemsOrEmpty
            if items.isEmpty then (tr1, Except.ok ([], st1))
            else if items.length < 100 then (tr1, Except.ok (items, st1))
            else
              match page_loop pages now envRT rresp fuel (p + 1) st1 with
              | (tr2, Except.error e) => (tr1 ++ tr2, Except.error e)
              | (tr2, Except.ok (rest, st2)) =>
                (tr1 ++ tr2, Except.ok (items ++ rest, st2)) :=
  rfl

theorem page_loop_run {γ : Type} (d : StoredToken) (t now : Int) (a : String)
    (envRT : Option String) (rresp : RefreshResponse)
    (h1 : d.expires_at = some (some t)) (h2 : now < t)
    (h3 : d.access_token = some a) :
    ∀ (L : List (HttpResp (PageData γ))) (pages : Nat → HttpResp (PageData γ))
      (p0 : Nat), L ≠ [] →
      (∀ i, i < L.length → pages (p0 + i) = L.getD i noResp) →
      (∀ i, i + 1 < L.length → isFullPage (L.getD i noResp)) →
      isLastPage (L.getD (L.length - 1) noResp) →
      page_loop pages now envRT rresp L.length p0 (some d) =
        ((List.range' p0 L.length).map Ev.httpGet,
         Except.ok ((L.map pageContribution).flatten, some d)) := by
  have hc := tokenCacheHit d t now a envRT rresp h1 h2 h3
  intro L
  induction L with
  | nil => intro pages p0 hne _ _ _; exact absurd rfl hne
  | cons r rest ih =>
    intro pages p0 _ hagree hfull hlast
    have hr0 : pages p0 = r := by simpa using hagree 0 (by simp)
    rw [List.length_cons, page_loop_succ, hc, hr0]
    cases rest with
    | nil =>
      simp at hlast
      by_cases hst : r.status = 200
      · rcases hlast with hst' | ⟨dd, hb, hlen⟩
        · exact absurd hst hst'
        · by_cases hemp : dd.itemsOrEmpty.isEmpty
          · have hnil : dd.itemsOrEmpty = [] := by simpa using hemp
            simp [hst, hb, hemp, pageContribution, hnil]
          · simp [hst, hb, hemp, hlen, pageContribution]
      · simp [hst, pageContribution]
    | cons r2 rest2 =>
      have hf := hfull 0 (by simp)
      simp only [List.getD_cons_zero] at hf
      rcases hf with ⟨hst, dd, hb, hlen⟩
      have hemp : ¬ dd.itemsOrEmpty.isEmpty := by
        rw [List.isEmpty_iff]
        intro h
        rw [h] at hlen
        simp at hlen
      have hnlt : ¬ dd.itemsOrEmpty.length < 100 := by omega
      have hrec := ih pages (p0 + 1) (by simp)
        (fun i hi => by
          have h := hagree (i + 1) (by simpa using Nat.succ_lt_succ hi)
          have harith : p0 + 1 + i = p0 + (i + 1) := by omega
          rw [harith]
          simpa using h)
        (fun i hi => by
          have h := hfull (i + 1) (by simpa using Nat.succ_lt_succ hi)
          simpa using h)
        (by simpa using hlast)
      simp only [List.length_cons] at hrec
      simp [hst, hb, hemp, hnlt, hrec, pageContribution, List.range'_succ]

/-- Claim C5: over an upstream whose page `p` is the `p`-th element of `L`,
when every page before the last is a full page (200, parsed, at least
`pageSize = 100` items of either accepted shape — an `items` wrapper object
or a bare list) and the last supplied page is terminal (non-200, or parsed
with fewer than 100 items, zero included), the pagination loop of the
per-client endpoints requests exactly pages 1, 2, ..., `L.length` in order
(the `httpGet` trace) and returns, without raising, the in-order
concatenation of every page's contribution — a terminal non-200 page
contributing nothing, i.e. the items accumulated so far. -/
theorem spec_c5 {γ : Type} (L : List (HttpResp (PageData γ))) (d : StoredToken)
    (t now : Int) (a : String) (envRT : Option String)
    (rresp : RefreshResponse)
    (h1 : d.expires_at = some (some t)) (h2 : now < t)
    (h3 : d.access_token = some a) (hne : L ≠ [])
    (hfull : ∀ i, i + 1 < L.length → isFullPage (L.getD i noResp))
    (hlast : isLastPage (L.getD (L.length - 1) noResp)) :
    page_loop (worldOf L) now envRT rresp L.length 1 (some d) =
      ((List.range' 1 L.length).map Ev.httpGet,
       Except.ok ((L.map pageContribution).flatten, some d)) :=
  page_loop_run d t now a envRT rresp h1 h2 h3 L (worldOf L) 1 hne
    (fun i hi => by simp [worldOf]) hfull hlast

def r500 : HttpResp (PageData ProjectR) :=
  { status := 500, text := ("err"), body := none }

theorem spec_c5_witness :
    page_loop (worldOf [r500]) 0 (some ("envtok")) rrOk 1 1 (some dFix) =
      ([Ev.httpGet 1], Except.ok ([], some dFix)) := by
  have h := spec_c5 [r500] dFix 10 0 ("tok")
    (some ("envtok")) rrOk rfl (by decide) rfl (by simp)
    (by intro i hi; simp at hi) (Or.inl (by decide))
  simpa [pageContribution, r500] using h

def cdFix : ClientData :=
  { id := some ("c1"), company := none, name := some ("ACME") }

/-- Claim C6 is false as stated: during the paginated data flow of
`/clients/{id}/resources`, a 200 page response whose body fails to parse as
JSON does not degrade to an empty collection — the unguarded `resp.json()`
of main.py line 160 raises, so the client-facing request fails instead of
returning a result. -/
theorem spec_c6_counterexample :
    get_client_resources { status := 200, text := "", body := some cdFix }
        (fun _ => { status := 200, text := "", body := none }) 1
        (some dFix) 0 (some ("envtok")) rrOk =
      ([Ev.httpGet 0, Ev.httpGet 1], Except.error Err.jsonDecode) :=
  rfl

/-- Claim C6 (amended): a response body that fails to parse as JSON degrades
to an empty list only on requests routed through `safe_get` (the `/clients`
and `/projects` endpoints), where the request succeeds with `[]`; on the raw
page requests of the per-client paginated flows the unguarded `resp.json()`
raises, failing the request (see the counterexample); and malformed JSON
during the auth flow likewise propagates as an error. -/
theorem spec_c6 {γ : Type} (d : StoredToken) (t now : Int) (a : String)
    (envRT : Option String) (rresp : RefreshResponse)
    (resp1 resp2 : HttpResp (PageData γ))
    (pages : Nat → HttpResp (PageData γ)) (fuel : Nat)
    (rtk : Option String) (rresp2 : RefreshResponse)
    (h1 : d.expires_at = some (some t)) (h2 : now < t)
    (h3 : d.access_token = some a)
    (ha1 : resp1.status = 200) (ha2 : resp1.body = none)
    (hb1 : rresp2.status = 200) (hb2 : rresp2.body = none)
    (hc1 : (pages 1).status = 200) (hc2 : (pages 1).body = none) :
    safe_get (some d) now envRT rresp resp1 resp2 =
        ([Ev.httpGet 1], Except.ok (PageData.list []))
      ∧ refresh_access_token rtk now rresp2 =
        ([Ev.refreshPost rtk], Except.error Err.jsonDecode)
      ∧ page_loop pages now envRT rresp (fuel + 1) 1 (some d) =
        ([Ev.httpGet 1], Except.error Err.jsonDecode) := by
  have hc := tokenCacheHit d t now a envRT rresp h1 h2 h3
  refine ⟨?_, ?_, ?_⟩
  · unfold safe_get
    rw [hc]
    simp [ha1, ha2]
  · unfold refresh_access_token
    simp [hb1, hb2]
  · rw [page_loop_succ, hc]
    simp [hc1, hc2]

def mal200P : HttpResp (PageData Project) :=
  { status := 200, text := "", body := none }

def malPagesP : Nat → HttpResp (PageData Project) := fun _ => mal200P

def malRefresh : RefreshResponse := { status := 200, text := "", body := none }

theorem spec_c6_witness :
    safe_get (some dFix) 0 (some ("envtok")) rrOk mal200P mal200P =
        ([Ev.httpGet 1], Except.ok (PageData.list []))
      ∧ refresh_access_token (some ("rt")) 0 malRefresh =
        ([Ev.refreshPost (some ("rt"))], Except.error Err.jsonDecode)
      ∧ page_loop malPagesP 0 (some ("envtok")) rrOk 1 1 (some dFix) =
        ([Ev.httpGet 1], Except.error Err.jsonDecode) :=
  spec_c6 dFix 10 0 ("tok") (some ("envtok")) rrOk mal200P mal200P
    malPagesP 0 (some ("rt")) malRefresh
    rfl (by decide) rfl rfl rfl rfl rfl rfl rfl

theorem safe_get_ok {γ : Type} (d : StoredToken) (t now : Int) (a : String)
    (envRT : Option String) (rresp : RefreshResponse)
    (resp1 resp2 : HttpResp (PageData γ)) (pd : PageData γ)
    (h1 : d.expires_at = some (some t)) (h2 : now < t)
    (h3 : d.access_token = some a)
    (h4 : resp1.status = 200) (h5 : resp1.body = some pd) :
    safe_get (some d) now envRT rresp resp1 resp2 =
      ([Ev.httpGet 1], Except.ok pd) := by
  have hc := tokenCacheHit d t now a envRT rresp h1 h2 h3
  unfold safe_get
  rw [hc]
  simp [h4, h5]

/-- Claim C7: `/projects` maps exactly "active" to 0, "complete" to 2,
"hold" to 3 and "inactive" to 4 (the `STATUS_MAP` equation); for any status
string whose trimmed, lowercased form is one of those keys it filters the
fetched page to the projects whose `status` equals the mapped code and
reports the normalized name as the applied filter; any other string, and an
absent status, leaves the page unfiltered and reports the filter as
"all". -/
theorem spec_c7 (page : Nat) (d : StoredToken) (t now : Int) (a : String)
    (envRT : Option String) (rresp : RefreshResponse)
    (resp1 resp2 : HttpResp (PageData Project)) (pd : PageData Project)
    (h1 : d.expires_at = some (some t)) (h2 : now < t)
    (h3 : d.access_token = some a)
    (h4 : resp1.status = 200) (h5 : resp1.body = some pd) :
    STATUS_MAP = [("active", 0), ("complete", 2), ("hold", 3), ("inactive", 4)]
    ∧ (∀ s : String, ∀ code : Int,
        alookup (pyStripLower s) STATUS_MAP = some code →
        ∃ out : ProjectsOut,
          (get_projects page (some s) (some d) now envRT rresp resp1 resp2).2 =
            Except.ok out
          ∧ out.filter = pyStripLower s
          ∧ out.projects =
              pd.itemsOrEmpty.filter (fun p => decide (p.status = some code)))
    ∧ (∀ s : String, alookup (pyStripLower s) STATUS_MAP = none →
        ∃ out : ProjectsOut,
          (get_projects page (some s) (some d) now envRT rresp resp1 resp2).2 =
            Except.ok out
          ∧ out.filter = ("all") ∧ out.projects = pd.itemsOrEmpty)
    ∧ (∃ out : ProjectsOut,
        (get_projects page none (some d) now envRT rresp resp1 resp2).2 =
          Except.ok out
        ∧ out.filter = ("all") ∧ out.projects = pd.itemsOrEmpty) := by
  have hsg := safe_get_ok d t now a envRT rresp resp1 resp2 pd h1 h2 h3 h4 h5
  refine ⟨rfl, ?_, ?_, ?_⟩
  · intro s code hcode
    have hs : ¬ s = "" := by
      intro hse
      rw [hse] at hcode
      have hnone : alookup (pyStripLower ("")) STATUS_MAP = none := by
        decide
      rw [hnone] at hcode
      exact Option.noConfusion hcode
    unfold get_projects
    rw [hsg]
    simp [hs, hcode]
  · intro s hcode
    by_cases hs : s = ""
    · subst hs
      unfold get_projects
      rw [hsg]
      simp
    · unfold get_projects
      rw [hsg]
      simp [hs, hcode]
  · unfold get_projects
    rw [hsg]
    simp

def pA : Project := { status := some 0, label := ("A") }

def pB : Project := { status := some 2, label := ("B") }

def pdProj : PageData Project := PageData.dict (some [pA, pB]) (some 7)

def respProj : HttpResp (PageData Project) :=
  { status := 200, text := "", body := some pdProj }

theorem spec_c7_witness :
    ∃ out : ProjectsOut,
      (get_projects 1 (some (" Active ")) (some dFix) 0 (some ("envtok")) rrOk
          respProj respProj).2 = Except.ok out
      ∧ out.filter = ("active") ∧ out.projects = [pA] := by
  obtain ⟨out, ho, hf, hp⟩ :=
    (spec_c7 1 dFix 10 0 ("tok") (some ("envtok")) rrOk respProj respProj
      pdProj rfl (by decide) rfl rfl rfl).2.1 (" Active ") 0 (by decide)
  refine ⟨out, ho, ?_, ?_⟩
  · rw [hf]; decide
  · rw [hp]; decide

theorem alookup_map_set {κ V : Type} [DecidableEq κ] (m : List (κ × V))
    (k k' : κ) (v : V) :
    alookup k' (m.map (fun kv => if kv.1 = k then (k, v) else kv)) =
      if k = k' then (alookup k m).map (fun _ => v) else alookup k' m := by
  induction m with
  | nil => simp [alookup]
  | cons kv rest ih =>
    by_cases hkv : kv.1 = k
    · by_cases hk : k = k'
      · subst hk
        simp [alookup, hkv, ih]
      · have hne : ¬ kv.1 = k' := by rw [hkv]; exact hk
        simp [alookup, hkv, hk, hne, ih]
    · by_cases hk2 : kv.1 = k'
      · have hne : ¬ k = k' := by
          intro h
          exact hkv (by rw [h, hk2])
        have hne2 : ¬ k' = k := fun h => hne h.symm
        simp [alookup, hkv, hk2, hne, hne2]
      · simp [alookup, hkv, hk2, ih]

theorem alookup_dinsert {κ V : Type} [DecidableEq κ] (m : List (κ × V))
    (k k' : κ) (v : V) :
    alookup k' (dinsert m k v) = if k = k' then some v else alookup k' m := by
  unfold dinsert
  cases hm : alookup k m with
  | none =>
    rw [alookup_append]
    by_cases hk : k = k'
    · subst hk
      simp [hm, alookup]
    · cases h2 : alookup k' m <;> simp [h2, alookup, hk]
  | some w =>
    rw [alookup_map_set]
    by_cases hk : k = k'
    · subst hk
      simp [hm]
    · simp [hk]

theorem alookup_eq_none_iff {κ V : Type} [DecidableEq κ] (m : List (κ × V))
    (k : κ) : alookup k m = none ↔ k ∉ m.map Prod.fst := by
  induction m with
  | nil => simp [alookup]
  | cons kv rest ih =>
    rw [List.map_cons]
    by_cases h : kv.1 = k
    · rw [alookup_cons, if_pos h]
      simp [h]
    · rw [alookup_cons, if_neg h, ih]
      have hk : ¬ k = kv.1 := fun hh => h hh.symm
      simp [List.mem_cons, hk]

theorem keys_dinsert {κ V : Type} [DecidableEq κ] (m : List (κ × V)) (k : κ)
    (v : V) :
    (dinsert m k v).map Prod.fst =
      match alookup k m with
      | some _ => m.map Prod.fst
      | none => m.map Prod.fst ++ [k] := by
  unfold dinsert
  cases hm : alookup k m with
  | some w =>
    simp only [List.map_map]
    apply List.map_congr_left
    intro kv _
    by_cases h : kv.1 = k <;> simp [h]
  | none => simp

theorem nodup_keys_dinsert {κ V : Type} [DecidableEq κ] (m : List (κ × V))
    (k : κ) (v : V) (h : (m.map Prod.fst).Nodup) :
    ((dinsert m k v).map Prod.fst).Nodup := by
  rw [keys_dinsert]
  cases hm : alookup k m with
  | some w => simpa using h
  | none =>
    have hk : k ∉ m.map Prod.fst := (alookup_eq_none_iff m k).mp hm
    simp [List.nodup_append, h, hk]

/-- Fold a sequence of (key, value) writes into an ordered dict, in order. -/
def dinsertAll {κ V : Type} [DecidableEq κ] (l m : List (κ × V)) :
    List (κ × V) :=
  l.foldl (fun acc kv => dinsert acc kv.1 kv.2) m

theorem alookup_dinsertAll {κ V : Type} [DecidableEq κ] (l : List (κ × V)) :
    ∀ (m : List (κ × V)) (k : κ),
      alookup k (dinsertAll l m) =
        match alookup k l.reverse with
        | some v => some v
        | none => alookup k m := by
  induction l with
  | nil => intro m k; simp [dinsertAll, alookup]
  | cons kv rest ih =>
    intro m k
    have hstep : dinsertAll (kv :: rest) m = dinsertAll rest (dinsert m kv.1 kv.2) := rfl
    rw [hstep, ih, List.reverse_cons, alookup_append]
    cases h : alookup k rest.reverse with
    | some w => simp
    | none =>
      by_cases hkv : kv.1 = k <;> simp [alookup_dinsert, alookup, hkv]

theorem nodup_dinsertAll {κ V : Type} [DecidableEq κ] (l : List (κ × V)) :
    ∀ m : List (κ × V), (m.map Prod.fst).Nodup →
      ((dinsertAll l m).map Prod.fst).Nodup := by
  induction l with
  | nil => intro m h; simpa [dinsertAll] using h
  | cons kv rest ih =>
    intro m h
    have hstep : dinsertAll (kv :: rest) m = dinsertAll rest (dinsert m kv.1 kv.2) := rfl
    rw [hstep]
    exact ih _ (nodup_keys_dinsert m kv.1 kv.2 h)

theorem extract_resources_eq (ps : List ProjectR) :
    ∀ m : List (String × NameRole),
      ps.foldl resourceStep m = dinsertAll (assignmentsOf ps) m := by
  induction ps with
  | nil => intro m; simp [assignmentsOf, dinsertAll]
  | cons p rest ih =>
    intro m
    have hone : resourceStep m p =
        dinsertAll ((match p.managerId, p.manager with
          | some mid, some mn =>
            if mid ≠ "" ∧ mn ≠ "" then
              [(mid, { name := mn, role := ("Project Manager") : NameRole })]
            else []
          | _, _ => []) ++
          (match p.principalId, p.principal with
          | some pid, some pn =>
            if pid ≠ "" ∧ pn ≠ "" then
              [(pid, { name := pn, role := ("Principal") : NameRole })]
            else []
          | _, _ => [])) m := by
      rcases p with ⟨mid, mn, pid, pn⟩
      cases mid <;> cases mn <;> cases pid <;> cases pn <;>
        simp [resourceStep, dinsertAll] <;> split_ifs <;>
        simp [dinsertAll]
    calc (p :: rest).foldl resourceStep m
        = rest.foldl resourceStep (resourceStep m p) := by simp
      _ = dinsertAll (assignmentsOf rest) (resourceStep m p) := ih _
      _ = dinsertAll (assignmentsOf (p :: rest)) m := by
          rw [hone]
          simp [assignmentsOf, dinsertAll, List.foldl_append]

def projMgr : ProjectR :=
  { managerId := some ("p1"), manager := some ("Alice"),
    principalId := none, principal := none }

def projPrin : ProjectR :=
  { managerId := none, manager := none,
    principalId := some ("p1"), principal := some ("Alice") }

/-- Claim C8: in the dict built by `/clients/{id}/resources` each person id
appears at most once (the key list has no duplicates, and the response's
`resources` array is exactly this dict's values), and the entry stored under
any id equals the *last* assignment to that id in program order — per
project the manager assignment then the principal assignment, projects in
fetched order — i.e. lookup in the reversed assignment sequence.  Hence, as
the final conjunct checks on the claim's own scenario, a person who is
manager in an earlier project and principal in a later one ends with role
"Principal". -/
theorem spec_c8 :
    (∀ ps : List ProjectR, ((extract_resources ps).map Prod.fst).Nodup)
    ∧ (∀ (ps : List ProjectR) (k : String),
        alookup k (extract_resources ps) =
          alookup k (assignmentsOf ps).reverse)
    ∧ alookup ("p1") (extract_resources [projMgr, projPrin]) =
        some { name := ("Alice"), role := ("Principal") } := by
  refine ⟨?_, ?_, ?_⟩
  · intro ps
    rw [show extract_resources ps = dinsertAll (assignmentsOf ps) [] from
      extract_resources_eq ps []]
    exact nodup_dinsertAll _ _ (by simp)
  · intro ps k
    rw [show extract_resources ps = dinsertAll (assignmentsOf ps) [] from
      extract_resources_eq ps [], alookup_dinsertAll]
    cases h : alookup k (assignmentsOf ps).reverse <;> simp [alookup]
  · decide

theorem alookup_map_adjust {κ V : Type} [DecidableEq κ] (m : List (κ × V))
    (k k' : κ) (f : V → V) :
    alookup k' (m.map (fun kv => if kv.1 = k then (kv.1, f kv.2) else kv)) =
      if k = k' then (alookup k m).map f else alookup k' m := by
  induction m with
  | nil => simp [alookup]
  | cons kv rest ih =>
    by_cases hkv : kv.1 = k
    · by_cases hk : k = k'
      · subst hk
        simp [alookup, hkv, ih]
      · have hne : ¬ kv.1 = k' := by rw [hkv]; exact hk
        simp [alookup, hkv, hk, hne, ih]
    · by_cases hk2 : kv.1 = k'
      · have hne : ¬ k = k' := fun h => hkv (by rw [h, hk2])
        have hne2 : ¬ k' = k := fun h => hne h.symm
        simp [alookup, hkv, hk2, hne, hne2]
      · simp [alookup, hkv, hk2, ih]

theorem alookup_groupStep_ne (m : List (Option String × ResAgg))
    (e : TimeEntry) (k : Option String) (h : ¬ e.resourceId = k) :
    alookup k (groupStep m e) = alookup k m := by
  unfold groupStep
  cases hm : alookup e.resourceId m with
  | some w =>
    rw [alookup_map_adjust]
    simp [h]
  | none =>
    rw [alookup_map_adjust]
    rw [if_neg h, alookup_append]
    cases h2 : alookup k m <;> simp [alookup, h]

theorem alookup_groupStep_self (m : List (Option String × ResAgg))
    (e : TimeEntry) :
    alookup e.resourceId (groupStep m e) =
      some (groupBump e ((alookup e.resourceId m).getD (groupFresh e))) := by
  unfold groupStep
  cases hm : alookup e.resourceId m with
  | some w =>
    rw [alookup_map_adjust]
    simp [hm]
  | none =>
    rw [alookup_map_adjust, if_pos rfl, alookup_append, hm]
    simp [alookup, hm]

theorem group_entries_snoc (es : List TimeEntry) (e : TimeEntry) :
    group_entries (es ++ [e]) = groupStep (group_entries es) e := by
  simp [group_entries, List.foldl_append]

theorem group_entries_mem (es : List TimeEntry) :
    ∀ k : Option String,
      (alookup k (group_entries es)).isSome = true ↔
        k ∈ es.map (fun e => e.resourceId) := by
  induction es using List.reverseRecOn with
  | nil => intro k; simp [group_entries, alookup]
  | append_singleton es e ih =>
    intro k
    rw [group_entries_snoc]
    by_cases hk : e.resourceId = k
    · rw [← hk, alookup_groupStep_self]
      simp
    · rw [alookup_groupStep_ne _ _ _ hk, ih k]
      have hk2 : ¬ k = e.resourceId := fun h => hk h.symm
      simp [List.map_append, List.mem_append, hk2]

/-- The time entries belonging to resource id `k`, in fetched order. -/
def entriesFor (es : List TimeEntry) (k : Option String) : List TimeEntry :=
  es.filter (fun e => decide (e.resourceId = k))

/-- The exact sum of the hours of resource `k`, a missing or null
`actualHours` contributing 0. -/
def hoursFor (es : List TimeEntry) (k : Option String) : ℚ :=
  ((entriesFor es k).map (fun e => e.actualHours.getD 0)).sum

theorem entriesFor_eq_nil (es : List TimeEntry) (k : Option String)
    (h : k ∉ es.map (fun e => e.resourceId)) : entriesFor es k = [] := by
  induction es with
  | nil => rfl
  | cons e rest ih =>
    simp only [List.map_cons, List.mem_cons] at h
    push_neg at h
    have h1 : ¬ e.resourceId = k := fun hh => h.1 hh.symm
    simp only [entriesFor, List.filter_cons]
    rw [if_neg (by simp [h1])]
    exact ih h.2

theorem entriesFor_append (es1 es2 : List TimeEntry) (k : Option String) :
    entriesFor (es1 ++ es2) k = entriesFor es1 k ++ entriesFor es2 k := by
  simp [entriesFor, List.filter_append]

theorem group_entries_spec (es : List TimeEntry) :
    ∀ (k : Option String) (v : ResAgg),
      alookup k (group_entries es) = some v →
      v.total_hours = hoursFor es k ∧
      v.entries = (entriesFor es k).map mkEntryOut := by
  induction es using List.reverseRecOn with
  | nil =>
    intro k v h
    simp [group_entries, alookup] at h
  | append_singleton es e ih =>
    intro k v h
    rw [group_entries_snoc] at h
    by_cases hk : e.resourceId = k
    · rw [← hk] at h ⊢
      rw [alookup_groupStep_self] at h
      have hv : v = groupBump e
          ((alookup e.resourceId (group_entries es)).getD (groupFresh e)) :=
        (Option.some_inj.mp h).symm
      cases hprev : alookup e.resourceId (group_entries es) with
      | some w =>
        obtain ⟨hw1, hw2⟩ := ih e.resourceId w hprev
        rw [hprev] at hv
        subst hv
        refine ⟨?_, ?_⟩
        · simp [groupBump, hw1, hoursFor, entriesFor_append, entriesFor,
            List.filter]
        · simp [groupBump, hw2, entriesFor_append, entriesFor, List.filter]
      | none =>
        rw [hprev] at hv
        subst hv
        have hmem : e.resourceId ∉ es.map (fun e => e.resourceId) := by
          intro hm
          have hs := (group_entries_mem es e.resourceId).mpr hm
          rw [hprev] at hs
          simp at hs
        have hnil := entriesFor_eq_nil es e.resourceId hmem
        have hnil2 : hoursFor es e.resourceId = 0 := by
          simp [hoursFor, hnil]
        refine ⟨?_, ?_⟩
        · simp only [groupBump, groupFresh, hoursFor, entriesFor_append, hnil,
            List.nil_append]
          simp [entriesFor, List.filter]
        · simp only [groupBump, groupFresh, entriesFor_append, hnil,
            List.nil_append]
          simp [entriesFor, List.filter]
    · rw [alookup_groupStep_ne _ _ _ hk] at h
      obtain ⟨h1, h2⟩ := ih k v h
      refine ⟨?_, ?_⟩
      · rw [h1]
        simp [hoursFor, entriesFor_append, entriesFor, List.filter, hk]
      · rw [h2]
        simp [entriesFor_append, entriesFor, List.filter, hk]

theorem page_loop_single {γ : Type} (d : StoredToken) (t now : Int)
    (a : String) (envRT : Option String) (rresp : RefreshResponse)
    (pages : Nat → HttpResp (PageData γ)) (pd : PageData γ)
    (h1 : d.expires_at = some (some t)) (h2 : now < t)
    (h3 : d.access_token = some a)
    (hs : (pages 1).status = 200) (hb : (pages 1).body = some pd)
    (hlen : pd.itemsOrEmpty.length < 100) :
    page_loop pages now envRT rresp 1 1 (some d) =
      ([Ev.httpGet 1], Except.ok (pd.itemsOrEmpty, some d)) := by
  have hc := tokenCacheHit d t now a envRT rresp h1 h2 h3
  have hu := page_loop_succ pages now envRT rresp 0 1 (some d)
  simp only [Nat.zero_add] at hu
  rw [hu, hc]
  by_cases hemp : pd.itemsOrEmpty.isEmpty
  · have hnil : pd.itemsOrEmpty = [] := by simpa using hemp
    simp [hs, hb, hemp, hnil]
  · simp [hs, hb, hemp, hlen]

/-- Claim C9: with a valid cached token, a found client and a single short
page of time entries, `/clients/{id}/timeentries` succeeds;
`total_time_entries` equals the number of entries fetched; the response rows
are exactly the grouped-by-`resourceId` dict's values with their totals
rounded to two decimals; each group's exact accumulated total equals the sum
of its own entries' hours, where a missing or null `actualHours` contributes
exactly 0 (the `getD 0` in `hoursFor`), and so each reported `total_hours`
is that sum rounded to 2 decimal places; each group's `entry_count` equals
the number of its entries; and a group exists for an id exactly when some
fetched entry carries that id. -/
theorem spec_c9 (d : StoredToken) (t now : Int) (a : String)
    (envRT : Option String) (rresp : RefreshResponse)
    (cresp : HttpResp ClientData) (cd : ClientData)
    (pages : Nat → HttpResp (PageData TimeEntry)) (pd : PageData TimeEntry)
    (h1 : d.expires_at = some (some t)) (h2 : now < t)
    (h3 : d.access_token = some a)
    (h4 : cresp.status = 200) (h5 : cresp.body = some cd)
    (h6 : (pages 1).status = 200) (h7 : (pages 1).body = some pd)
    (h8 : pd.itemsOrEmpty.length < 100) :
    ∃ out : TimeOut,
      (get_client_timeentries cresp pages 1 (some d) now envRT rresp).2 =
        Except.ok out
      ∧ out.total_time_entries = pd.itemsOrEmpty.length
      ∧ out.resources_with_hours =
          (group_entries pd.itemsOrEmpty).map (fun kv =>
            { resource_name := kv.2.name,
              total_hours := round2 kv.2.total_hours,
              entry_count := kv.2.entries.length,
              entries := kv.2.entries })
      ∧ (∀ (k : Option String) (v : ResAgg),
          alookup k (group_entries pd.itemsOrEmpty) = some v →
          v.total_hours = hoursFor pd.itemsOrEmpty k ∧
          round2 v.total_hours = round2 (hoursFor pd.itemsOrEmpty k) ∧
          v.entries = (entriesFor pd.itemsOrEmpty k).map mkEntryOut ∧
          v.entries.length = (entriesFor pd.itemsOrEmpty k).length)
      ∧ (∀ k : Option String,
          (alookup k (group_entries pd.itemsOrEmpty)).isSome = true ↔
            k ∈ pd.itemsOrEmpty.map (fun e => e.resourceId)) := by
  have hc := tokenCacheHit d t now a envRT rresp h1 h2 h3
  have hp := page_loop_single d t now a envRT rresp pages pd h1 h2 h3 h6 h7 h8
  have hres : get_client_timeentries cresp pages 1 (some d) now envRT rresp =
      ([Ev.httpGet 0, Ev.httpGet 1], Except.ok
        { client := mkClientOut cd,
          total_time_entries := pd.itemsOrEmpty.length,
          resources_with_hours := (group_entries pd.itemsOrEmpty).map (fun kv =>
            { resource_name := kv.2.name,
              total_hours := round2 kv.2.total_hours,
              entry_count := kv.2.entries.length,
              entries := kv.2.entries }) }) := by
    unfold get_client_timeentries
    rw [hc]
    simp [h4, h5, hp]
  refine ⟨_, by rw [hres], rfl, rfl, ?_, ?_⟩
  · intro k v hv
    obtain ⟨hh1, hh2⟩ := group_entries_spec pd.itemsOrEmpty k v hv
    exact ⟨hh1, by rw [hh1], hh2, by rw [hh2]; simp⟩
  · exact group_entries_mem pd.itemsOrEmpty

def te1 : TimeEntry :=
  { resourceId := some ("r1"), resource := some ("R One"),
    actualHours := some (5 / 2), date := none, project := none,
    activity := none, description := none, billable := none }

def te2 : TimeEntry :=
  { resourceId := some ("r1"), resource := none, actualHours := none,
    date := none, project := none, activity := none, description := none,
    billable := none }

def pdTE : PageData TimeEntry := PageData.list [te1, te2]

def respC : HttpResp ClientData :=
  { status := 200, text := "", body := some cdFix }

def pagesTE : Nat → HttpResp (PageData TimeEntry) :=
  fun _ => { status := 200, text := "", body := some pdTE }

theorem spec_c9_witness :
    ∃ out : TimeOut,
      (get_client_timeentries respC pagesTE 1 (some dFix) 0 (some ("envtok"))
          rrOk).2 = Except.ok out
      ∧ out.total_time_entries = 2 := by
  obtain ⟨out, ho, ht, _⟩ :=
    spec_c9 dFix 10 0 ("tok") (some ("envtok")) rrOk respC cdFix pagesTE pdTE
      rfl (by decide) rfl rfl rfl rfl rfl (by decide)
  exact ⟨out, ho, by rw [ht]; rfl⟩
